import Mathlib

/-
Verification of the falling-block puzzle engine in vibecode.py.

The Python source is shallowly embedded: every mutating method becomes a
pure function from the game state to a new game state (plus the returned
Bool where the source returns one).  Machine integers are modelled as Int
(grid coordinates can be negative above the top of the grid) or Nat.
The pseudo-random shuffle used by the bag refill is modelled as an oracle
stream of lists, one per refill; theorems that need the shuffle to be a
permutation of the seven kinds take that as a hypothesis.
-/

set_option maxRecDepth 4000
set_option maxHeartbeats 2000000

namespace Vibecode

/-- COLS constant from the source: board width in cells. -/
def COLS : Nat := 10

/-- ROWS constant from the source: board height including buffer rows. -/
def ROWS : Nat := 22

/-- LOCK_DELAY constant from the source: frames a resting piece waits before locking. -/
def LOCK_DELAY : Nat := 2

/-- LOCK_DELAY_RESET_ON_MOVE constant from the source (set to False there). -/
def LOCK_DELAY_RESET_ON_MOVE : Bool := false

/-- GRAVITY_LEVELS constant from the source: frames per cell for each level. -/
def GRAVITY_LEVELS : List Nat := [48, 43, 38, 33, 28, 23, 18, 13, 8, 6, 5, 5, 4, 4, 3, 3, 2, 2, 1]

/-- The seven tetromino kinds (keys of TETROMINO_BLOCKS in the source). -/
inductive Kind where
  | I | J | L | O | S | T | Z
  deriving DecidableEq

/-- The kinds in source (dict insertion) order: list(TETROMINO_BLOCKS.keys()). -/
def allKinds : List Kind := [Kind.I, Kind.J, Kind.L, Kind.O, Kind.S, Kind.T, Kind.Z]

/-- TETROMINO_BLOCKS from the source: block offsets of each kind at rotation 0. -/
def TETROMINO_BLOCKS : Kind → List (Int × Int)
  | Kind.I => [(-1, 0), (0, 0), (1, 0), (2, 0)]
  | Kind.J => [(-1, -1), (-1, 0), (0, 0), (1, 0)]
  | Kind.L => [(-1, 0), (0, 0), (1, 0), (1, -1)]
  | Kind.O => [(0, 0), (1, 0), (0, -1), (1, -1)]
  | Kind.S => [(-1, 0), (0, 0), (0, -1), (1, -1)]
  | Kind.T => [(-1, 0), (0, 0), (1, 0), (0, -1)]
  | Kind.Z => [(-1, -1), (0, -1), (0, 0), (1, 0)]

/-- The loop body of rotate_point: apply (x, y) to (y, -x) the given number of times. -/
def rotate_iter : Int × Int → Nat → Int × Int
  | p, 0 => p
  | p, n + 1 => rotate_iter (p.2, -p.1) n

/-- rotate_point from the source: rotate (x, y) around the origin r times 90 degrees clockwise. -/
def rotate_point (x y : Int) (r : Nat) : Int × Int :=
  rotate_iter (x, y) (r % 4)

/-- A Tetromino instance: kind, pivot position and rotation state (kept in 0..3). -/
structure Tetromino where
  kind : Kind
  x : Int
  y : Int
  rotation : Nat
  deriving DecidableEq

/-- Tetromino.__init__ from the source: rotation 0, spawn position x 4, y 1. -/
def Tetromino.spawn (k : Kind) : Tetromino :=
  { kind := k, x := 4, y := 1, rotation := 0 }

/-- Tetromino.get_cells from the source, with the rotation and offsets passed
explicitly (the Python default arguments are filled in at each call site). -/
def Tetromino.get_cells (t : Tetromino) (rot : Nat) (xoff yoff : Int) : List (Int × Int) :=
  (TETROMINO_BLOCKS t.kind).map fun p =>
    let q := rotate_point p.1 p.2 rot
    (xoff + q.1, yoff + q.2)

/-- Tetromino.get_cells at the stored rotation and position (the all-defaults call). -/
def Tetromino.cells (t : Tetromino) : List (Int × Int) :=
  Tetromino.get_cells t t.rotation t.x t.y

/-- KICKS from the source: SRS+ wall-kick candidate lists for the non-I kinds,
keyed by the (from, to) rotation pair; none for the pairs absent from the dict. -/
def KICKS : Nat × Nat → Option (List (Int × Int))
  | (0, 1) => some [(0, 0), (-1, 0), (-1, 1), (0, -2), (-1, -2)]
  | (1, 0) => some [(0, 0), (1, 0), (1, -1), (0, 2), (1, 2)]
  | (1, 2) => some [(0, 0), (1, 0), (1, -1), (0, 2), (1, 2)]
  | (2, 1) => some [(0, 0), (-1, 0), (-1, 1), (0, -2), (-1, -2)]
  | (2, 3) => some [(0, 0), (1, 0), (1, 1), (0, -2), (1, -2)]
  | (3, 2) => some [(0, 0), (-1, 0), (-1, -1), (0, 2), (-1, 2)]
  | (3, 0) => some [(0, 0), (-1, 0), (-1, -1), (0, 2), (-1, 2)]
  | (0, 3) => some [(0, 0), (1, 0), (1, 1), (0, -2), (1, -2)]
  | _ => none

/-- IKICKS from the source: the I-piece wall-kick candidate lists. -/
def IKICKS : Nat × Nat → Option (List (Int × Int))
  | (0, 1) => some [(0, 0), (-2, 0), (1, 0), (-2, -1), (1, 2)]
  | (1, 0) => some [(0, 0), (2, 0), (-1, 0), (2, 1), (-1, -2)]
  | (1, 2) => some [(0, 0), (-1, 0), (2, 0), (-1, 2), (2, -1)]
  | (2, 1) => some [(0, 0), (1, 0), (-2, 0), (1, -2), (-2, 1)]
  | (2, 3) => some [(0, 0), (2, 0), (-1, 0), (2, 1), (-1, -2)]
  | (3, 2) => some [(0, 0), (-2, 0), (1, 0), (-2, -1), (1, 2)]
  | (3, 0) => some [(0, 0), (1, 0), (-2, 0), (1, -2), (-2, 1)]
  | (0, 3) => some [(0, 0), (-1, 0), (2, 0), (-1, 2), (2, -1)]
  | _ => none

/-- The Bag randomizer.  The queue deque becomes a list; random.shuffle is
modelled by the oracle stream shuffles, whose idx-th entry is the list
appended by the idx-th refill. -/
structure Bag where
  q : List Kind
  shuffles : Nat → List Kind
  idx : Nat

/-- Bag._refill from the source: extend the queue with the next shuffled bag. -/
def Bag.refill (b : Bag) : Bag :=
  { b with q := b.q ++ b.shuffles b.idx, idx := b.idx + 1 }

/-- Bag.next from the source: refill only when the queue is empty, then pop the
front kind and wrap it in a freshly spawned Tetromino.  The source would raise
on popping an empty deque after a refill; that cannot happen because shuffle
always yields the seven kinds, and is modelled by an arbitrary piece. -/
def Bag.next (b : Bag) : Tetromino × Bag :=
  let b1 := if b.q.length = 0 then b.refill else b
  match b1.q with
  | [] => (Tetromino.spawn Kind.I, b1)
  | k :: rest => (Tetromino.spawn k, { b1 with q := rest })

/-- Bag.__init__ from the source: start from an empty queue and refill once. -/
def Bag.init (s : Nat → List Kind) : Bag :=
  Bag.refill { q := [], shuffles := s, idx := 0 }

/-- Draw n pieces in sequence, returning their kinds and the final bag state. -/
def Bag.draw : Bag → Nat → List Kind × Bag
  | b, 0 => ([], b)
  | b, n + 1 =>
    let p := Bag.next b
    let r := Bag.draw p.2 n
    (p.1.kind :: r.1, r.2)

/-- A board row of the source grid: one optional kind per column. -/
abbrev Row := List (Option Kind)

/-- An empty row, as created by Board.__init__ and clear_lines. -/
def empty_row : Row := List.replicate COLS none

/-- The Board: the ROWS x COLS grid of optional kinds. -/
structure Board where
  grid : List Row
  deriving DecidableEq

/-- Board.cell from the source: the grid entry at an in-range position, none
otherwise.  The inside() check of the source omits 0 <= y, but every caller
tests y >= 0 first, so the stricter guard used here is call-site equivalent. -/
def Board.cell (b : Board) (x y : Int) : Option Kind :=
  if 0 ≤ x ∧ x < (COLS : Int) ∧ 0 ≤ y ∧ y < (ROWS : Int) then
    (b.grid.getD y.toNat []).getD x.toNat none
  else none

/-- Board.collide from the source: a cell collides when it is outside the side
walls, at or past the bottom, or overlaps a non-empty grid cell with y >= 0.
Cells with y < 0 never collide against grid contents. -/
def Board.collide (b : Board) (cells : List (Int × Int)) : Bool :=
  cells.any fun c =>
    decide (c.1 < 0) || decide ((COLS : Int) ≤ c.1) || decide ((ROWS : Int) ≤ c.2) ||
      (decide (0 ≤ c.2) && (Board.cell b c.1 c.2).isSome)

/-- Board.lock from the source: write the piece kind into every cell of the
piece whose y lies in [0, ROWS); cells above the top are silently dropped.
The source indexes the row by x unguarded; locked pieces always have
0 <= x < COLS (they were committed collision-free), and the guard here makes
the function total without changing any reachable case. -/
def Board.lock (b : Board) (t : Tetromino) : Board :=
  ⟨(Tetromino.cells t).foldl
    (fun grid c =>
      if 0 ≤ c.2 ∧ c.2 < (ROWS : Int) ∧ 0 ≤ c.1 then
        grid.set c.2.toNat ((grid.getD c.2.toNat []).set c.1.toNat (some t.kind))
      else grid)
    b.grid⟩

/-- A row is kept by clear_lines when some cell is empty (the source filter). -/
def row_keeps (r : Row) : Bool := r.any fun c => c.isNone

/-- A full row in the sense of the specification: every cell is non-empty. -/
def row_full (r : Row) : Bool := r.all fun c => c.isSome

/-- Board.clear_lines from the source: keep the rows that have an empty cell,
prepend empty rows to restore the row count, return how many were removed. -/
def Board.clear_lines (b : Board) : Nat × Board :=
  let new := b.grid.filter row_keeps
  let cleared := ROWS - new.length
  (cleared, ⟨List.replicate cleared empty_row ++ new⟩)

/-- The Game state from Game.__init__.  The pygame input-echo fields
(left_held, right_held, das_dir, das_timer, down_held, soft_drop_timer) live
in the rendering driver, are never read by the rules engine, and involve a
fractional frame counter, so they are left outside the embedded core. -/
structure Game where
  board : Board
  bag : Bag
  next_queue : List Tetromino
  current : Tetromino
  hold_piece : Option Tetromino
  hold_used : Bool
  level : Nat
  score : Int
  lines : Nat
  combo : Int
  back_to_back : Bool
  gravity_timer : Nat
  gravity_frames : Nat
  lock_delay : Nat
  are : Nat
  game_over : Bool

/-- Game.detect_tspin from the source: for a T piece, count the four diagonal
corners around the pivot that are out of bounds or hold a locked cell, and
declare a T-spin when at least three are blocked. -/
def detect_tspin (b : Board) (t : Tetromino) : Bool :=
  if t.kind ≠ Kind.T then false
  else
    let corners : List (Int × Int) := [(-1, -1), (1, -1), (-1, 1), (1, 1)]
    let blocked := corners.countP fun d =>
      let x := t.x + d.1
      let y := t.y + d.2
      decide (x < 0) || decide ((COLS : Int) ≤ x) || decide (y < 0) ||
        decide ((ROWS : Int) ≤ y) || (Board.cell b x y).isSome
    decide (3 ≤ blocked)

/-- Game.spawn_next from the source: pop the front of the next queue, append a
fresh bag draw, reset the popped piece to the spawn pose (4, 0, rotation 0),
and set the game-over flag when the spawned cells collide.  The queue is kept
at depth 5 by every caller; popping an empty deque would raise in the source
and is modelled as the identity. -/
def Game.spawn_next (g : Game) : Game :=
  match g.next_queue with
  | [] => g
  | t :: rest =>
    let p := Bag.next g.bag
    let cur : Tetromino := { t with x := 4, y := 0, rotation := 0 }
    { g with
        current := cur
        next_queue := rest ++ [p.1]
        bag := p.2
        game_over := g.game_over ||
          Board.collide g.board (Tetromino.get_cells cur cur.rotation cur.x cur.y) }

/-- Game.after_lock from the source: T-spin detection, base score with the
back-to-back multiplier, the hard-drop bonus, line/combo/back-to-back/level
bookkeeping, and the spawn of the next piece.  The source computes
int(base * 1.5) through a float; every base value it can multiply is an even
non-negative integer, so (3 * base) / 2 is exact and equal to it. -/
def Game.after_lock (g : Game) (cleared : Nat) (hard : Bool) : Game :=
  let is_tspin := if g.current.kind = Kind.T then detect_tspin g.board g.current else false
  let base : Int :=
    if is_tspin then
      if cleared = 1 then 800
      else if cleared = 2 then 1200
      else if cleared = 3 then 1600
      else 400
    else
      if cleared = 0 then 0
      else if cleared = 1 then 100
      else if cleared = 2 then 300
      else if cleared = 3 then 500
      else if cleared = 4 then 800
      else 0
  let difficult : Bool := decide (cleared = 4) || (is_tspin && decide (0 < cleared))
  let g1 := { g with score := g.score +
    (if g.back_to_back && difficult then (3 * base) / 2 else base) }
  let g2 := if hard then { g1 with score := g1.score + 2 * ((ROWS : Int) - g1.current.y) } else g1
  let g3 := { g2 with lines := g2.lines + cleared }
  let g4 :=
    if 0 < cleared then
      let ga := { g3 with combo := if 0 ≤ g3.combo then g3.combo + 1 else 0 }
      if difficult then
        let gb := if ga.back_to_back then { ga with score := ga.score + 50 } else ga
        { gb with back_to_back := true }
      else { ga with back_to_back := false }
    else { g3 with combo := -1 }
  let g5 := { g4 with
    level := g4.lines / 10
    gravity_frames := GRAVITY_LEVELS.getD (min (g4.lines / 10) (GRAVITY_LEVELS.length - 1)) 0 }
  Game.spawn_next { g5 with hold_used := false, lock_delay := 0 }

/-- Fuel for the hard-drop descent loop: a real piece always collides before
its pivot passes ROWS + 2, so this bound is never reached and the fuelled
recursion computes exactly the maximal descent of the source while loop. -/
def drop_fuel (t : Tetromino) : Nat := ROWS + 4 + (-t.y).toNat

/-- The descent loop of Game.hard_drop: move down while one more row would not
collide. -/
def drop_aux (b : Board) (t : Tetromino) : Nat → Tetromino
  | 0 => t
  | n + 1 =>
    if Board.collide b (Tetromino.get_cells t t.rotation t.x (t.y + 1)) then t
    else drop_aux b { t with y := t.y + 1 } n

/-- The piece position after the hard-drop descent loop. -/
def Game.hd_dropped (g : Game) : Tetromino :=
  drop_aux g.board g.current (drop_fuel g.current)

/-- Game.hard_drop from the source: descend fully, lock, clear lines, then run
the shared post-lock procedure with the hard flag set. -/
def Game.hard_drop (g : Game) : Game :=
  let t := drop_aux g.board g.current (drop_fuel g.current)
  let b1 := Board.lock g.board t
  let r := Board.clear_lines b1
  Game.after_lock { g with current := t, board := r.2 } r.1 true

/-- Game.soft_drop from the source: move one row down when that does not
collide, scoring one point; optionally reset the lock delay (the constant
policy flag is False in the source). -/
def Game.soft_drop (g : Game) : Game × Bool :=
  if Board.collide g.board
      (Tetromino.get_cells g.current g.current.rotation g.current.x (g.current.y + 1)) then
    (g, false)
  else
    let g1 := { g with
      current := { g.current with y := g.current.y + 1 }
      score := g.score + 1 }
    (if LOCK_DELAY_RESET_ON_MOVE then { g1 with lock_delay := 0 } else g1, true)

/-- The soft-drop-to-contact loop of the rendering driver: while soft_drop
reports a move, call it again (fuelled; the driver loop terminates because
each successful step lowers the piece). -/
def soft_drop_loop : Game → Nat → Game
  | g, 0 => g
  | g, n + 1 =>
    let r := Game.soft_drop g
    if r.2 then soft_drop_loop r.1 n else r.1

/-- Game.try_move from the source: probe the horizontally shifted cells and
commit the shift when they do not collide. -/
def Game.try_move (g : Game) (dx : Int) : Game × Bool :=
  if Board.collide g.board
      (Tetromino.get_cells g.current g.current.rotation (g.current.x + dx) g.current.y) then
    (g, false)
  else
    let g1 := { g with current := { g.current with x := g.current.x + dx } }
    (if LOCK_DELAY_RESET_ON_MOVE then { g1 with lock_delay := 0 } else g1, true)

/-- The candidate loop of Game.try_rotate: try each kick offset in order and
commit position and rotation together at the first non-colliding one.  The
source mutates the rotation tentatively and reverts it on failure; in this
pure embedding the failure branch simply returns the state unchanged. -/
def try_rotate_aux (g : Game) (new : Nat) : List (Int × Int) → Game × Bool
  | [] => (g, false)
  | o :: rest =>
    let nx := g.current.x + o.1
    let ny := g.current.y + o.2
    if Board.collide g.board (Tetromino.get_cells g.current new nx ny) then
      try_rotate_aux g new rest
    else
      let g1 := { g with current := { g.current with x := nx, y := ny, rotation := new } }
      (if LOCK_DELAY_RESET_ON_MOVE then { g1 with lock_delay := 0 } else g1, true)

/-- Game.try_rotate from the source: compute the target rotation modulo 4,
pick the I table for the I kind and the generic table otherwise (falling back
to the in-place candidate when the pair is absent, as for 180-degree turns),
and run the candidate loop. -/
def Game.try_rotate (g : Game) (dir : Int) : Game × Bool :=
  let old := g.current.rotation
  let new := (((old : Int) + dir % 4) % 4).toNat
  let kicks := if g.current.kind = Kind.I then IKICKS else KICKS
  try_rotate_aux g new ((kicks (old, new)).getD [(0, 0)])

/-- Game.gravity_step from the source: descend one row when possible (resetting
the lock delay), otherwise advance the lock-delay counter and lock the piece
when it reaches LOCK_DELAY, clearing lines and running the post-lock
procedure.  Returns whether a lock occurred. -/
def Game.gravity_step (g : Game) : Game × Bool :=
  if Board.collide g.board
      (Tetromino.get_cells g.current g.current.rotation g.current.x (g.current.y + 1)) then
    let g1 := { g with lock_delay := g.lock_delay + 1 }
    if LOCK_DELAY ≤ g1.lock_delay then
      let b1 := Board.lock g1.board g1.current
      let r := Board.clear_lines b1
      (Game.after_lock { g1 with board := r.2 } r.1 false, true)
    else (g1, false)
  else
    ({ g with current := { g.current with y := g.current.y + 1 }, lock_delay := 0 }, false)

/-- Game.hold from the source: rejected when already used this piece; an empty
hold slot stores the current kind and spawns from the queue, an occupied one
swaps kinds and respawns at the spawn pose with the same game-over check as a
spawn; both paths set the used flag and clear the timers.  The input-echo
resets of the source touch only driver fields outside the embedded state. -/
def Game.hold (g : Game) : Game :=
  if g.hold_used then g
  else
    let g1 :=
      match g.hold_piece with
      | none =>
        Game.spawn_next { g with hold_piece := some (Tetromino.spawn g.current.kind) }
      | some hp =>
        let cur : Tetromino := { kind := hp.kind, x := 4, y := 0, rotation := 0 }
        { g with
            current := cur
            hold_piece := some (Tetromino.spawn g.current.kind)
            game_over := g.game_over ||
              Board.collide g.board (Tetromino.get_cells cur cur.rotation cur.x cur.y) }
    { g1 with hold_used := true, lock_delay := 0, gravity_timer := 0 }

/-! Specification-side vocabulary used to state the claims. -/

/-- The standard clear-score table of the specification:
0/1/2/3/4 lines give 0/100/300/500/800 points. -/
def normal_clear_score (c : Nat) : Int :=
  if c = 1 then 100 else if c = 2 then 300 else if c = 3 then 500
  else if c = 4 then 800 else 0

/-- The T-spin clear-score table of the specification:
1/2/3 lines give 800/1200/1600 points, zero lines give 400. -/
def tspin_clear_score (c : Nat) : Int :=
  if c = 1 then 800 else if c = 2 then 1200 else if c = 3 then 1600 else 400

/-- A diagonal corner is blocked when it lies outside the grid boundary or is
occupied by a locked cell. -/
def corner_blocked (b : Board) (x y : Int) : Prop :=
  x < 0 ∨ (COLS : Int) ≤ x ∨ y < 0 ∨ (ROWS : Int) ≤ y ∨ Board.cell b x y ≠ none

instance (b : Board) (x y : Int) : Decidable (corner_blocked b x y) :=
  inferInstanceAs (Decidable
    (x < 0 ∨ (COLS : Int) ≤ x ∨ y < 0 ∨ (ROWS : Int) ≤ y ∨ Board.cell b x y ≠ none))

/-- How many of the four diagonal corners around the pivot of a piece are
blocked. -/
def blocked_corner_count (b : Board) (t : Tetromino) : Nat :=
  ([(-1, -1), (1, -1), (-1, 1), (1, 1)] : List (Int × Int)).countP fun d =>
    decide (corner_blocked b (t.x + d.1) (t.y + d.2))

/-- A clear is difficult in the sense of the specification: a four-line clear
or a T-spin clear of at least one line. -/
def difficult_clear (ts : Bool) (c : Nat) : Prop :=
  c = 4 ∨ (ts = true ∧ 0 < c)

instance (ts : Bool) (c : Nat) : Decidable (difficult_clear ts c) :=
  inferInstanceAs (Decidable (c = 4 ∨ (ts = true ∧ 0 < c)))

/-! Concrete states used by witnesses and counterexamples. -/

/-- A deterministic shuffle oracle: every refill yields the kinds in order. -/
def plainShuffles : Nat → List Kind := fun _ => allKinds

/-- A game state with the given board and current piece and quiescent
bookkeeping fields, as right after construction. -/
def mkGame (b : Board) (t : Tetromino) : Game :=
  { board := b
    bag := { q := allKinds, shuffles := plainShuffles, idx := 1 }
    next_queue := List.replicate 5 (Tetromino.spawn Kind.T)
    current := t
    hold_piece := none
    hold_used := false
    level := 0
    score := 0
    lines := 0
    combo := -1
    back_to_back := false
    gravity_timer := 0
    gravity_frames := 48
    lock_delay := 0
    are := 0
    game_over := false }

/-- A board whose top row is full except for columns 3..5 and whose second row
is filled exactly under those columns: a T at the spawn pose rests on it with
its top cell above the grid, and locking completes the top row. -/
def bOverflow : Board :=
  ⟨[[some Kind.J, some Kind.J, some Kind.J, none, none, none,
     some Kind.J, some Kind.J, some Kind.J, some Kind.J],
    [none, none, none, some Kind.J, some Kind.J, some Kind.J, none, none, none, none]]
   ++ List.replicate 20 empty_row⟩

/-- C1 scenario: a T piece at the spawn pose on bOverflow; its cell (4, -1)
lies above the top of the grid. -/
def gOverflow : Game := mkGame bOverflow { kind := Kind.T, x := 4, y := 0, rotation := 0 }

/-- C2 scenario: an ordinary mid-air piece on an empty board, but with the
game-over flag already set. -/
def gOverFlag : Game :=
  { mkGame ⟨List.replicate 22 empty_row⟩ { kind := Kind.T, x := 4, y := 1, rotation := 0 } with
      game_over := true }

/-- C4 witness scenario: a vertical I piece hugging the left wall; rotating it
clockwise to the horizontal needs the third kick candidate (2, 0). -/
def gIKick : Game :=
  mkGame ⟨List.replicate 22 empty_row⟩ { kind := Kind.I, x := 0, y := 10, rotation := 1 }

/-- C5 scenario board: column 0 of row 19 is filled, row 20 is full except for
column 1, and row 21 is filled in columns 3..8. -/
def bTspin : Board :=
  ⟨List.replicate 19 empty_row ++
   [some Kind.J :: List.replicate 9 none,
    [some Kind.J, none, some Kind.J, some Kind.J, some Kind.J, some Kind.J,
     some Kind.J, some Kind.J, some Kind.J, some Kind.J],
    [none, none, none, some Kind.J, some Kind.J, some Kind.J,
     some Kind.J, some Kind.J, some Kind.J, none]]⟩

/-- C5 scenario: a T piece resting in the notch at (1, 21) with the lock-delay
counter one step from the threshold, so the next gravity step locks it,
clears row 20 and leaves exactly three of the four pivot corners blocked. -/
def gTspin : Game :=
  { mkGame bTspin { kind := Kind.T, x := 1, y := 21, rotation := 0 } with lock_delay := 1 }

/-- C6 witness scenario: a non-T piece with the back-to-back flag set. -/
def gB2b : Game :=
  { mkGame ⟨List.replicate 22 empty_row⟩ { kind := Kind.J, x := 4, y := 1, rotation := 0 } with
      back_to_back := true }

/-- A row with a single marker cell, used to watch rows shift on a clear. -/
def mark_row : Row := some Kind.I :: List.replicate 9 none

/-- A completely full row. -/
def full_row : Row := List.replicate COLS (some Kind.T)

/-- C7 scenario: the bottom two rows are full; a marker row sits at index 5. -/
def bClear : Board :=
  ⟨List.replicate 5 empty_row ++ [mark_row] ++ List.replicate 14 empty_row ++
   [full_row, full_row]⟩

/-- The expected result of clearing bClear: two empty rows prepended, the
marker row shifted down from index 5 to index 7. -/
def bClearAfter : Board :=
  ⟨List.replicate 7 empty_row ++ [mark_row] ++ List.replicate 14 empty_row⟩

/-- C8 scenario: a T piece already resting on the floor of an empty board;
a hard drop descends zero rows. -/
def gResting : Game :=
  mkGame ⟨List.replicate 22 empty_row⟩ { kind := Kind.T, x := 4, y := 21, rotation := 0 }

/-- C9 witness scenario: a free piece in the middle of an empty board. -/
def gFree : Game :=
  mkGame ⟨List.replicate 22 empty_row⟩ { kind := Kind.T, x := 4, y := 1, rotation := 0 }

/-- C3 witness scenario: a bag whose queue still holds one kind. -/
def bagMid : Bag := { q := [Kind.S], shuffles := plainShuffles, idx := 3 }

/-! Helper lemmas. -/

theorem spawn_next_score (g : Game) : (Game.spawn_next g).score = g.score := by
  cases hq : g.next_queue <;> simp [Game.spawn_next, hq]

theorem spawn_next_back_to_back (g : Game) :
    (Game.spawn_next g).back_to_back = g.back_to_back := by
  cases hq : g.next_queue <;> simp [Game.spawn_next, hq]

theorem cells_update (t : Tetromino) (r : Nat) (nx ny : Int) :
    Tetromino.cells { t with x := nx, y := ny, rotation := r } =
      Tetromino.get_cells t r nx ny := rfl

theorem soft_drop_eq (g : Game) :
    Game.soft_drop g =
      if Board.collide g.board
          (Tetromino.get_cells g.current g.current.rotation g.current.x (g.current.y + 1)) then
        (g, false)
      else
        ({ g with current := { g.current with y := g.current.y + 1 },
                  score := g.score + 1 }, true) := by
  rw [Game.soft_drop]
  split <;> simp [LOCK_DELAY_RESET_ON_MOVE]

theorem soft_drop_board (g : Game) : (Game.soft_drop g).1.board = g.board := by
  rw [soft_drop_eq]; split <;> rfl

theorem soft_drop_loop_board (fuel : Nat) (g : Game) :
    (soft_drop_loop g fuel).board = g.board := by
  induction fuel generalizing g with
  | zero => rfl
  | succ n ih =>
    rw [soft_drop_loop]
    split
    · exact (ih (Game.soft_drop g).1).trans (soft_drop_board g)
    · exact soft_drop_board g

theorem row_keeps_eq (r : Row) : row_keeps r = !row_full r := by
  induction r with
  | nil => rfl
  | cons a l ih => cases a <;> simp [row_keeps, row_full] <;>
      simpa [row_keeps, row_full] using ih

theorem filter_keeps_length (l : List Row) :
    (l.filter row_keeps).length = l.length - l.countP row_full := by
  induction l with
  | nil => rfl
  | cons r l ih =>
    have hle := List.countP_le_length (p := row_full) (l := l)
    rw [List.filter_cons, List.countP_cons]
    by_cases h : row_full r = true
    · have hk : row_keeps r = false := by rw [row_keeps_eq, h]; rfl
      simp [hk, h, ih] <;> omega
    · have hk : row_keeps r = true := by
        rw [row_keeps_eq]; cases hf : row_full r
        · rfl
        · exact absurd hf h
      simp [hk, h, ih] <;> omega

theorem detect_tspin_non_t (b : Board) (t : Tetromino) (h : t.kind ≠ Kind.T) :
    detect_tspin b t = false := by
  rw [detect_tspin, if_pos h]

theorem is_tspin_if (b : Board) (t : Tetromino) :
    (if t.kind = Kind.T then detect_tspin b t else false) = detect_tspin b t := by
  by_cases h : t.kind = Kind.T
  · rw [if_pos h]
  · rw [if_neg h, detect_tspin_non_t b t h]

theorem detect_tspin_t_kind (b : Board) (t : Tetromino) (h : detect_tspin b t = true) :
    t.kind = Kind.T := by
  by_contra hk
  rw [detect_tspin_non_t b t hk] at h
  exact absurd h (by simp)

theorem after_lock_score_eq (g : Game) (c : Nat) (hard : Bool) :
    (Game.after_lock g c hard).score =
      g.score +
        (if difficult_clear (detect_tspin g.board g.current) c ∧ g.back_to_back = true then
            (3 * (if detect_tspin g.board g.current then tspin_clear_score c
                  else normal_clear_score c)) / 2 + 50
          else
            (if detect_tspin g.board g.current then tspin_clear_score c
             else normal_clear_score c)) +
      (if hard then 2 * ((ROWS : Int) - g.current.y) else 0) := by
  cases hdet : detect_tspin g.board g.current with
  | false =>
    cases hb2b : g.back_to_back <;>
      cases hard <;>
        rcases c with _ | _ | _ | _ | _ | c <;>
          simp [Game.after_lock, hdet, hb2b, spawn_next_score,
            difficult_clear, normal_clear_score, tspin_clear_score, ROWS] <;>
          omega
  | true =>
    have hkind : g.current.kind = Kind.T := detect_tspin_t_kind _ _ hdet
    cases hb2b : g.back_to_back <;>
      cases hard <;>
        rcases c with _ | _ | _ | _ | _ | c <;>
          simp [Game.after_lock, hdet, hkind, hb2b, spawn_next_score,
            difficult_clear, normal_clear_score, tspin_clear_score, ROWS] <;>
          omega

theorem after_lock_hard_score (g : Game) (c : Nat) :
    (Game.after_lock g c true).score =
      (Game.after_lock g c false).score + 2 * ((ROWS : Int) - g.current.y) := by
  rw [after_lock_score_eq, after_lock_score_eq]
  simp

theorem bag_next_cons (b : Bag) (k : Kind) (rest : List Kind) (hq : b.q = k :: rest) :
    Bag.next b = (Tetromino.spawn k, { b with q := rest }) := by
  simp [Bag.next, hq]

theorem bag_draw_length (b : Bag) (n : Nat) : (Bag.draw b n).1.length = n := by
  induction n generalizing b with
  | zero => rfl
  | succ n ih => simp [Bag.draw, ih]

theorem bag_draw_add (b : Bag) (m n : Nat) :
    Bag.draw b (m + n) =
      ((Bag.draw b m).1 ++ (Bag.draw (Bag.draw b m).2 n).1,
        (Bag.draw (Bag.draw b m).2 n).2) := by
  induction m generalizing b with
  | zero => simp [Bag.draw]
  | succ m ih =>
    rw [Nat.succ_add]
    simp only [Bag.draw]
    rw [ih]
    simp

theorem bag_draw_queue (l : List Kind) (b : Bag) (hq : b.q = l) :
    Bag.draw b l.length = (l, { q := [], shuffles := b.shuffles, idx := b.idx }) := by
  induction l generalizing b with
  | nil =>
    rcases b with ⟨bq, bs, bi⟩
    simp only at hq
    subst hq
    rfl
  | cons k rest ih =>
    rw [List.length_cons]
    simp only [Bag.draw]
    rw [bag_next_cons b k rest hq]
    dsimp only [Tetromino.spawn]
    rw [ih { b with q := rest } rfl]

theorem bag_draw_bag (b : Bag) (hq : b.q = [])
    (hlen : (b.shuffles b.idx).length = 7) :
    Bag.draw b 7 =
      (b.shuffles b.idx, { q := [], shuffles := b.shuffles, idx := b.idx + 1 }) := by
  rcases hs : b.shuffles b.idx with _ | ⟨k, rest⟩
  · rw [hs] at hlen; simp at hlen
  · have h1 : Bag.next b =
        (Tetromino.spawn k, { q := rest, shuffles := b.shuffles, idx := b.idx + 1 }) := by
      simp [Bag.next, Bag.refill, hq, hs]
    have hr : rest.length = 6 := by
      rw [hs] at hlen; simpa using hlen
    have h7 : (7 : Nat) = rest.length + 1 := by omega
    rw [h7]
    simp only [Bag.draw]
    rw [h1]
    dsimp only [Tetromino.spawn]
    rw [bag_draw_queue rest { q := rest, shuffles := b.shuffles, idx := b.idx + 1 } rfl]

theorem bag_draw_blocks (s : Nat → List Kind) (hlen : ∀ n, (s n).length = 7) :
    ∀ j, Bag.draw (Bag.init s) (7 * j + 7) =
      ((Bag.draw (Bag.init s) (7 * j)).1 ++ s j,
        { q := [], shuffles := s, idx := j + 1 }) := by
  intro j
  induction j with
  | zero =>
    have h0 : Bag.init s = { q := s 0, shuffles := s, idx := 1 } := by
      simp [Bag.init, Bag.refill]
    have h7 : 7 * 0 + 7 = (s 0).length := by rw [hlen 0]
    rw [h0, h7, bag_draw_queue (s 0) { q := s 0, shuffles := s, idx := 1 } rfl]
    simp [Bag.draw]
  | succ j ih =>
    have e1 : 7 * (j + 1) = 7 * j + 7 := by ring
    rw [e1, bag_draw_add, ih]
    dsimp only
    rw [bag_draw_bag { q := [], shuffles := s, idx := j + 1 } rfl (hlen (j + 1))]

theorem corner_pointwise (b : Board) (x y : Int) :
    (decide (x < 0) || decide ((COLS : Int) ≤ x) || decide (y < 0) ||
      decide ((ROWS : Int) ≤ y) || (Board.cell b x y).isSome) =
    decide (corner_blocked b x y) := by
  cases hc : Board.cell b x y <;> simp [corner_blocked, hc, Bool.or_assoc]

theorem try_move_safe (g : Game) (dx : Int) (h : (Game.try_move g dx).2 = true) :
    Board.collide (Game.try_move g dx).1.board
      (Tetromino.cells (Game.try_move g dx).1.current) = false := by
  by_cases hc : Board.collide g.board
      (Tetromino.get_cells g.current g.current.rotation (g.current.x + dx) g.current.y) = true
  · rw [Game.try_move, if_pos hc] at h
    exact absurd h (by simp)
  · have hc0 : Board.collide g.board
        (Tetromino.get_cells g.current g.current.rotation (g.current.x + dx) g.current.y)
        = false := by
      revert hc
      cases Board.collide g.board
        (Tetromino.get_cells g.current g.current.rotation (g.current.x + dx) g.current.y) <;>
        simp
    rw [Game.try_move, if_neg hc]
    simpa [LOCK_DELAY_RESET_ON_MOVE, Tetromino.cells] using hc0

theorem try_rotate_aux_safe (l : List (Int × Int)) (g : Game) (r : Nat)
    (h : (try_rotate_aux g r l).2 = true) :
    Board.collide (try_rotate_aux g r l).1.board
      (Tetromino.cells (try_rotate_aux g r l).1.current) = false := by
  induction l with
  | nil => exact absurd h (by simp [try_rotate_aux])
  | cons o rest ih =>
    by_cases hc : Board.collide g.board
        (Tetromino.get_cells g.current r (g.current.x + o.1) (g.current.y + o.2)) = true
    · simp only [try_rotate_aux, if_pos hc] at h ⊢
      exact ih h
    · have hc0 : Board.collide g.board
          (Tetromino.get_cells g.current r (g.current.x + o.1) (g.current.y + o.2))
          = false := by
        revert hc
        cases Board.collide g.board
          (Tetromino.get_cells g.current r (g.current.x + o.1) (g.current.y + o.2)) <;>
          simp
      simp only [try_rotate_aux, if_neg hc]
      simpa [LOCK_DELAY_RESET_ON_MOVE, Tetromino.cells] using hc0

theorem try_rotate_safe (g : Game) (dir : Int) (h : (Game.try_rotate g dir).2 = true) :
    Board.collide (Game.try_rotate g dir).1.board
      (Tetromino.cells (Game.try_rotate g dir).1.current) = false :=
  try_rotate_aux_safe _ g _ h

theorem spawn_next_safe (g : Game) (hq : g.next_queue ≠ [])
    (h : (Game.spawn_next g).game_over = false) :
    Board.collide (Game.spawn_next g).board
      (Tetromino.cells (Game.spawn_next g).current) = false := by
  rcases hql : g.next_queue with _ | ⟨t, rest⟩
  · exact absurd hql hq
  · simp only [Game.spawn_next, hql] at h ⊢
    rcases Bool.or_eq_false_iff.mp h with ⟨-, h2⟩
    simpa [Tetromino.cells] using h2

theorem hold_safe (g : Game) (hu : g.hold_used = false) (hq : g.next_queue ≠ [])
    (h : (Game.hold g).game_over = false) :
    Board.collide (Game.hold g).board (Tetromino.cells (Game.hold g).current) = false := by
  rcases g with ⟨gboard, gbag, gqueue, gcur, ghold, ghu, glevel, gscore, glines, gcombo,
    gb2b, ggt, ggf, gld, gare, ggo⟩
  dsimp only at hu hq h ⊢
  subst hu
  rcases ghold with _ | hp
  · simp only [Game.hold, Bool.false_eq_true, if_false] at h ⊢
    exact spawn_next_safe _ hq h
  · simp only [Game.hold, Bool.false_eq_true, if_false] at h ⊢
    rcases Bool.or_eq_false_iff.mp h with ⟨-, h2⟩
    simpa [Tetromino.cells] using h2

theorem try_rotate_aux_fail (l : List (Int × Int)) (g : Game) (r : Nat)
    (h : ∀ o ∈ l, Board.collide g.board
      (Tetromino.get_cells g.current r (g.current.x + o.1) (g.current.y + o.2)) = true) :
    try_rotate_aux g r l = (g, false) := by
  induction l with
  | nil => rfl
  | cons o rest ih =>
    simp only [try_rotate_aux]
    rw [if_pos (h o (List.mem_cons_self o rest))]
    exact ih fun p hp => h p (List.mem_cons_of_mem o hp)

theorem try_rotate_aux_first (l : List (Int × Int)) (g : Game) (r : Nat) :
    ∀ i, i < l.length →
    (∀ j, j < i → Board.collide g.board
      (Tetromino.get_cells g.current r (g.current.x + (l.getD j (0, 0)).1)
        (g.current.y + (l.getD j (0, 0)).2)) = true) →
    Board.collide g.board
      (Tetromino.get_cells g.current r (g.current.x + (l.getD i (0, 0)).1)
        (g.current.y + (l.getD i (0, 0)).2)) = false →
    try_rotate_aux g r l =
      ({ g with current := { g.current with
          x := g.current.x + (l.getD i (0, 0)).1,
          y := g.current.y + (l.getD i (0, 0)).2,
          rotation := r } }, true) := by
  induction l with
  | nil => intro i hi; simp at hi
  | cons o rest ih =>
    intro i hi hbefore hit
    cases i with
    | zero =>
      simp only [List.getD_cons_zero] at hit ⊢
      simp only [try_rotate_aux, hit, Bool.false_eq_true, if_false,
        LOCK_DELAY_RESET_ON_MOVE]
    | succ i =>
      have h0 : Board.collide g.board
          (Tetromino.get_cells g.current r (g.current.x + o.1) (g.current.y + o.2))
          = true := by
        have := hbefore 0 (Nat.succ_pos i)
        simpa [List.getD_cons_zero] using this
      simp only [try_rotate_aux]
      rw [if_pos h0]
      have hrec := ih i (by simpa using hi)
        (fun j hj => by
          have := hbefore (j + 1) (by omega)
          simpa [List.getD_cons_succ] using this)
        (by simpa [List.getD_cons_succ] using hit)
      simpa [List.getD_cons_succ] using hrec

/-! Claim theorems. -/

/-- Claim C1 (code bug): locking a piece with a cell above the top of the grid
is not surfaced as game-over.  In gOverflow the current T piece has the cell
(4, -1) above the grid; the hard drop locks it in place (the piece does not
descend), silently drops that cell, and the game remains active. -/
theorem C1_overflow_lock_stays_active :
    ((4 : Int), (-1 : Int)) ∈ Tetromino.cells gOverflow.current ∧
    Game.hd_dropped gOverflow = gOverflow.current ∧
    (Game.hard_drop gOverflow).game_over = false := by decide

/-- Claim C2 (code bug): gameplay intents are not rejected once the game-over
flag is set.  In gOverFlag the flag is true, yet try_move succeeds and moves
the piece, and soft_drop succeeds and changes the score. -/
theorem C2_intents_run_after_game_over :
    gOverFlag.game_over = true ∧
    (Game.try_move gOverFlag (-1)).2 = true ∧
    (Game.try_move gOverFlag (-1)).1.current.x = 3 ∧
    gOverFlag.current.x = 4 ∧
    (Game.soft_drop gOverFlag).2 = true ∧
    (Game.soft_drop gOverFlag).1.score = gOverFlag.score + 1 := by decide

/-- Claim C7: clear_lines removes exactly the full rows, keeps the remaining
rows in order below that many fresh empty rows, keeps the row count at ROWS,
and returns the number of removed rows; on the concrete board with the bottom
two rows full it returns 2 and shifts every other row down by two. -/
theorem C7_clear_lines_compaction :
    (∀ b : Board, b.grid.length = ROWS →
      (Board.clear_lines b).1 = b.grid.countP row_full ∧
      (Board.clear_lines b).2.grid =
        List.replicate (b.grid.countP row_full) empty_row ++
          b.grid.filter (fun r => !row_full r) ∧
      (Board.clear_lines b).2.grid.length = ROWS) ∧
    Board.clear_lines bClear = (2, bClearAfter) := by
  constructor
  · intro b hlen
    have hle := List.countP_le_length (p := row_full) (l := b.grid)
    have hfl : (b.grid.filter row_keeps).length = ROWS - b.grid.countP row_full := by
      rw [filter_keeps_length, hlen]
    have h2 : ROWS - (ROWS - b.grid.countP row_full) = b.grid.countP row_full := by
      omega
    refine ⟨?_, ?_, ?_⟩
    · show ROWS - (b.grid.filter row_keeps).length = _
      rw [hfl, h2]
    · show List.replicate (ROWS - (b.grid.filter row_keeps).length) empty_row ++
        b.grid.filter row_keeps = _
      rw [hfl, h2, List.filter_congr (fun r _ => row_keeps_eq r)]
    · show (List.replicate (ROWS - (b.grid.filter row_keeps).length) empty_row ++
        b.grid.filter row_keeps).length = ROWS
      rw [List.length_append, List.length_replicate, hfl]
      omega
  · decide

/-- Claim C7 witness: the general clear_lines characterization applied to the
concrete board bClear. -/
theorem C7_clear_lines_compaction_witness :
    bClear.grid.length = ROWS ∧
    ((Board.clear_lines bClear).1 = bClear.grid.countP row_full ∧
      (Board.clear_lines bClear).2.grid =
        List.replicate (bClear.grid.countP row_full) empty_row ++
          bClear.grid.filter (fun r => !row_full r) ∧
      (Board.clear_lines bClear).2.grid.length = ROWS) :=
  ⟨by decide, C7_clear_lines_compaction.1 bClear (by decide)⟩

/-- Claim C8 counterexample: the hard-drop bonus is not two points per row of
actual descent.  In gResting the piece already rests on its support (the
one-row-down probe collides and the descent loop does not move it), yet the
hard drop still adds 2 points, where the claim demands a zero bonus. -/
theorem C8_resting_bonus_counterexample :
    Board.collide gResting.board
      (Tetromino.get_cells gResting.current gResting.current.rotation gResting.current.x
        (gResting.current.y + 1)) = true ∧
    Game.hd_dropped gResting = gResting.current ∧
    (Game.hard_drop gResting).score = gResting.score + 2 := by decide

/-- Claim C8 as amended: the hard-drop placement bonus equals
2 * (ROWS - y) for the pivot row y at which the piece locks — two points per
row between the locked pivot and the bottom of the grid, independent of the
distance actually descended: a hard drop scores exactly like a non-hard lock
of the fully descended piece plus that bonus. -/
theorem C8_hard_drop_bonus_height (g : Game) :
    (Game.hard_drop g).score =
      (Game.after_lock
        { g with current := Game.hd_dropped g,
                 board := (Board.clear_lines (Board.lock g.board (Game.hd_dropped g))).2 }
        (Board.clear_lines (Board.lock g.board (Game.hd_dropped g))).1 false).score
      + 2 * ((ROWS : Int) - (Game.hd_dropped g).y) :=
  after_lock_hard_score _ _

/-- Claim C10: soft_drop never locks and never touches the board: it either
fails, returning the state unchanged, or moves the piece one row down adding
exactly one point — nothing else; consequently the soft-drop-to-contact loop
of the driver leaves the board (and hence the locked content) unchanged. -/
theorem C10_soft_drop_never_locks (g : Game) :
    (Game.soft_drop g).1.board = g.board ∧
    Game.soft_drop g =
      (if Board.collide g.board
          (Tetromino.get_cells g.current g.current.rotation g.current.x (g.current.y + 1)) then
        (g, false)
      else
        ({ g with current := { g.current with y := g.current.y + 1 },
                  score := g.score + 1 }, true)) ∧
    ∀ fuel : Nat, (soft_drop_loop g fuel).board = g.board :=
  ⟨soft_drop_board g, soft_drop_eq g, fun fuel => soft_drop_loop_board fuel g⟩

/-- Claim C3: the bag refills only when its queue is empty — next() on a
non-empty queue pops the front without consulting the shuffle oracle — and,
when every shuffle is a permutation of the seven kinds, the draw sequence is
aligned in blocks of seven: block j of the draws is exactly shuffle j, so it
contains every kind exactly once and repeats none before the bag is
exhausted. -/
theorem C3_seven_bag_invariant (s : Nat → List Kind)
    (hperm : ∀ n, (s n).Perm allKinds) :
    (∀ b : Bag, b.q ≠ [] →
      Bag.next b = (Tetromino.spawn (b.q.headD Kind.I), { b with q := b.q.tail })) ∧
    (∀ n, (Bag.draw (Bag.init s) n).1.length = n) ∧
    (∀ j, ((Bag.draw (Bag.init s) (7 * j + 7)).1).drop (7 * j) = s j) ∧
    (∀ j k, (((Bag.draw (Bag.init s) (7 * j + 7)).1).drop (7 * j)).count k = 1) := by
  have hlen : ∀ n, (s n).length = 7 := fun n => by
    rw [(hperm n).length_eq]; rfl
  have hblock : ∀ j, ((Bag.draw (Bag.init s) (7 * j + 7)).1).drop (7 * j) = s j := by
    intro j
    have hl : (Bag.draw (Bag.init s) (7 * j)).1.length = 7 * j :=
      bag_draw_length _ _
    rw [bag_draw_blocks s hlen j]
    dsimp only
    have hdl := List.drop_left ((Bag.draw (Bag.init s) (7 * j)).1) (s j)
    rw [hl] at hdl
    exact hdl
  refine ⟨?_, fun n => bag_draw_length _ n, hblock, ?_⟩
  · intro b hb
    rcases hq : b.q with _ | ⟨k, rest⟩
    · exact absurd hq hb
    · rw [bag_next_cons b k rest hq]
      rfl
  · intro j k
    rw [hblock j, List.Perm.count_eq (hperm j) k]
    cases k <;> decide

/-- Claim C3 witness: the no-early-refill equation on a bag with one queued
kind, and the count-one property of the second aligned block of draws. -/
theorem C3_seven_bag_invariant_witness :
    Bag.next bagMid =
      (Tetromino.spawn (bagMid.q.headD Kind.I), { bagMid with q := bagMid.q.tail }) ∧
    (((Bag.draw (Bag.init plainShuffles) (7 * 1 + 7)).1).drop (7 * 1)).count Kind.T = 1 :=
  ⟨(C3_seven_bag_invariant plainShuffles (fun _ => List.Perm.refl allKinds)).1 bagMid
      (by decide),
   (C3_seven_bag_invariant plainShuffles (fun _ => List.Perm.refl allKinds)).2.2.2 1 Kind.T⟩

/-- Claim C4: try_rotate computes the target rotation as current plus or minus
one modulo 4, uses the I table for the I kind and the generic table otherwise,
whose looked-up candidate list always starts with (0, 0), commits the first
candidate in table order whose cells do not collide (position and rotation
together), and returns failure with the state — rotation and position —
unchanged when every candidate collides. -/
theorem C4_srs_kick_resolution (g : Game) (dir : Int) (tgt : Nat)
    (L : List (Int × Int))
    (hdir : dir = 1 ∨ dir = -1)
    (hrot : g.current.rotation < 4)
    (htgt : tgt = (((g.current.rotation : Int) + dir % 4) % 4).toNat)
    (hL : L = ((if g.current.kind = Kind.I then IKICKS else KICKS)
        (g.current.rotation, tgt)).getD [(0, 0)]) :
    ((dir = 1 → tgt = (g.current.rotation + 1) % 4) ∧
      (dir = -1 → tgt = (g.current.rotation + 3) % 4)) ∧
    L.head? = some (0, 0) ∧
    ((∀ o ∈ L, Board.collide g.board
        (Tetromino.get_cells g.current tgt (g.current.x + o.1) (g.current.y + o.2))
          = true) →
      Game.try_rotate g dir = (g, false)) ∧
    (∀ i, i < L.length →
      (∀ j, j < i → Board.collide g.board
        (Tetromino.get_cells g.current tgt (g.current.x + (L.getD j (0, 0)).1)
          (g.current.y + (L.getD j (0, 0)).2)) = true) →
      Board.collide g.board
        (Tetromino.get_cells g.current tgt (g.current.x + (L.getD i (0, 0)).1)
          (g.current.y + (L.getD i (0, 0)).2)) = false →
      Game.try_rotate g dir =
        ({ g with current := { g.current with
            x := g.current.x + (L.getD i (0, 0)).1,
            y := g.current.y + (L.getD i (0, 0)).2,
            rotation := tgt } }, true)) := by
  have hun : Game.try_rotate g dir = try_rotate_aux g tgt L := by
    rw [hL, htgt]
    rfl
  have hcases : g.current.rotation = 0 ∨ g.current.rotation = 1 ∨
      g.current.rotation = 2 ∨ g.current.rotation = 3 := by omega
  refine ⟨⟨?_, ?_⟩, ?_, ?_, ?_⟩
  · rintro rfl
    rw [htgt]
    rcases hcases with h | h | h | h <;> rw [h] <;> rfl
  · rintro rfl
    rw [htgt]
    rcases hcases with h | h | h | h <;> rw [h] <;> rfl
  · rw [hL, htgt]
    rcases hdir with rfl | rfl <;> rcases hcases with h | h | h | h <;> rw [h] <;>
      by_cases hk : g.current.kind = Kind.I <;> simp only [hk, if_true, if_false] <;> rfl
  · intro hall
    rw [hun]
    exact try_rotate_aux_fail L g tgt hall
  · intro i hi hbefore hit
    rw [hun]
    exact try_rotate_aux_first L g tgt i hi hbefore hit

/-- Claim C4 witness: rotating the wall-hugging vertical I piece of gIKick
clockwise commits the third kick candidate (2, 0) of the I table entry for the
transition from rotation 1 to rotation 2, after the first two candidates
collide with the left wall. -/
theorem C4_srs_kick_resolution_witness :
    Game.try_rotate gIKick 1 =
      ({ gIKick with current := { gIKick.current with
          x := gIKick.current.x +
            ((([(0, 0), (-1, 0), (2, 0), (-1, 2), (2, -1)] : List (Int × Int)).getD 2
              (0, 0)).1),
          y := gIKick.current.y +
            ((([(0, 0), (-1, 0), (2, 0), (-1, 2), (2, -1)] : List (Int × Int)).getD 2
              (0, 0)).2),
          rotation := 2 } }, true) :=
  (C4_srs_kick_resolution gIKick 1 2 [(0, 0), (-1, 0), (2, 0), (-1, 2), (2, -1)]
      (Or.inl rfl) (by decide) (by decide) (by decide)).2.2.2 2
    (by decide) (by decide) (by decide)

/-- Claim C5: detect_tspin declares a T-spin exactly for a T piece with at
least 3 of its 4 diagonal pivot corners blocked (occupied or outside the grid
boundary); in the concrete state gTspin a T locks with exactly 3 blocked
corners clearing one line and scores 800 points, not the standard 100. -/
theorem C5_tspin_corner_rule :
    (∀ (b : Board) (t : Tetromino),
      detect_tspin b t =
        (decide (t.kind = Kind.T) && decide (3 ≤ blocked_corner_count b t))) ∧
    gTspin.back_to_back = false ∧
    blocked_corner_count (Board.clear_lines (Board.lock gTspin.board gTspin.current)).2
      gTspin.current = 3 ∧
    (Game.gravity_step gTspin).2 = true ∧
    (Game.gravity_step gTspin).1.score = gTspin.score + 800 ∧
    (Game.gravity_step gTspin).1.lines = 1 := by
  refine ⟨?_, by decide, by decide, by decide, by decide, by decide⟩
  intro b t
  by_cases h : t.kind = Kind.T
  · rw [detect_tspin, if_neg (fun hn => hn h), h]
    have hcnt :
        ([(-1, -1), (1, -1), (-1, 1), (1, 1)] : List (Int × Int)).countP
          (fun d =>
            decide (t.x + d.1 < 0) || decide ((COLS : Int) ≤ t.x + d.1) ||
              decide (t.y + d.2 < 0) || decide ((ROWS : Int) ≤ t.y + d.2) ||
              (Board.cell b (t.x + d.1) (t.y + d.2)).isSome) =
          blocked_corner_count b t :=
      List.countP_congr fun d _ => by rw [corner_pointwise b (t.x + d.1) (t.y + d.2)]
    simp only [hcnt, decide_eq_true_eq]
    simp
  · simp [detect_tspin_non_t b t h, h]

/-- Claim C6: the after-lock score increment follows the standard table
0/100/300/500/800 for a non-T-spin clear, the T-spin table 400/800/1200/1600,
and applies the floored times-1.5 back-to-back multiplier (plus the flat +50)
exactly when the back-to-back flag is set and the current clear is difficult;
the flag itself records whether the last clearing lock was difficult; a
second consecutive tetris adds exactly 1250 points. -/
theorem C6_scoring_tables :
    (∀ (g : Game) (c : Nat) (hard : Bool),
      (Game.after_lock g c hard).score =
        g.score +
          (if difficult_clear (detect_tspin g.board g.current) c ∧ g.back_to_back = true then
              (3 * (if detect_tspin g.board g.current then tspin_clear_score c
                    else normal_clear_score c)) / 2 + 50
            else
              (if detect_tspin g.board g.current then tspin_clear_score c
               else normal_clear_score c)) +
        (if hard then 2 * ((ROWS : Int) - g.current.y) else 0)) ∧
    (∀ (g : Game) (c : Nat) (hard : Bool),
      (Game.after_lock g c hard).back_to_back =
        if 0 < c then decide (difficult_clear (detect_tspin g.board g.current) c)
        else g.back_to_back) ∧
    (∀ g : Game, g.back_to_back = true → detect_tspin g.board g.current = false →
      (Game.after_lock g 4 false).score = g.score + 1250) := by
  refine ⟨after_lock_score_eq, ?_, ?_⟩
  · intro g c hard
    cases hdet : detect_tspin g.board g.current with
    | false =>
      cases hb2b : g.back_to_back <;>
        cases hard <;>
          rcases c with _ | _ | _ | _ | _ | c <;>
            simp [Game.after_lock, hdet, hb2b, spawn_next_back_to_back, difficult_clear]
    | true =>
      have hkind : g.current.kind = Kind.T := detect_tspin_t_kind _ _ hdet
      cases hb2b : g.back_to_back <;>
        cases hard <;>
          rcases c with _ | _ | _ | _ | _ | c <;>
            simp [Game.after_lock, hdet, hkind, hb2b, spawn_next_back_to_back,
              difficult_clear]
  · intro g hb hd
    rw [after_lock_score_eq]
    simp [hb, hd, difficult_clear, normal_clear_score]

/-- Claim C6 witness: a second consecutive four-line clear (back-to-back flag
set, no T-spin) awards exactly 1250 points in the concrete state gB2b. -/
theorem C6_scoring_tables_witness :
    gB2b.back_to_back = true ∧
    detect_tspin gB2b.board gB2b.current = false ∧
    (Game.after_lock gB2b 4 false).score = gB2b.score + 1250 :=
  ⟨rfl, by decide, C6_scoring_tables.2.2 gB2b rfl (by decide)⟩

/-- Claim C9: no operation commits a colliding piece.  A successful try_move
or try_rotate leaves a current piece whose cells do not collide; a spawn
(directly or through hold) that does not end the game leaves a non-colliding
current piece. -/
theorem C9_no_colliding_commit :
    (∀ (g : Game) (dx : Int), (Game.try_move g dx).2 = true →
      Board.collide (Game.try_move g dx).1.board
        (Tetromino.cells (Game.try_move g dx).1.current) = false) ∧
    (∀ (g : Game) (dir : Int), (Game.try_rotate g dir).2 = true →
      Board.collide (Game.try_rotate g dir).1.board
        (Tetromino.cells (Game.try_rotate g dir).1.current) = false) ∧
    (∀ g : Game, g.next_queue ≠ [] → (Game.spawn_next g).game_over = false →
      Board.collide (Game.spawn_next g).board
        (Tetromino.cells (Game.spawn_next g).current) = false) ∧
    (∀ g : Game, g.hold_used = false → g.next_queue ≠ [] →
      (Game.hold g).game_over = false →
      Board.collide (Game.hold g).board
        (Tetromino.cells (Game.hold g).current) = false) :=
  ⟨try_move_safe, try_rotate_safe, spawn_next_safe, hold_safe⟩

/-- Claim C9 witness: the four collision-freedom guarantees instantiated on
the concrete state gFree, where the move, the rotation, the spawn and the
hold all succeed. -/
theorem C9_no_colliding_commit_witness :
    Board.collide (Game.try_move gFree (-1)).1.board
      (Tetromino.cells (Game.try_move gFree (-1)).1.current) = false ∧
    Board.collide (Game.try_rotate gFree 1).1.board
      (Tetromino.cells (Game.try_rotate gFree 1).1.current) = false ∧
    Board.collide (Game.spawn_next gFree).board
      (Tetromino.cells (Game.spawn_next gFree).current) = false ∧
    Board.collide (Game.hold gFree).board
      (Tetromino.cells (Game.hold gFree).current) = false :=
  ⟨C9_no_colliding_commit.1 gFree (-1) (by decide),
   C9_no_colliding_commit.2.1 gFree 1 (by decide),
   C9_no_colliding_commit.2.2.1 gFree (by decide) (by decide),
   C9_no_colliding_commit.2.2.2 gFree rfl (by decide) (by decide)⟩

end Vibecode
